import Mathlib

/-!
Shallow embedding of the core of `src/main.py` (the FRANZ desktop agent):
coordinate mapping, mouse normalization, the command parser, the sandboxed
Python evaluator, the command dispatcher, and the PNG encoder, together with
theorems settling the specification claims.

Machine conventions: Python integers are `Int`/`Nat`; Python `round` on the
exact rational quotients appearing in the source is modelled by
round-half-to-even over integer division (CPython rounds half to even);
byte strings are `List Nat` with each entry a byte value.
-/

/-- Round-half-to-even of the rational `n / d` for a positive divisor `d`,
the behaviour of Python `round()` on an exactly represented quotient.
`/` and `%` on `Int` are Euclidean, which for `d > 0` agrees with Python's
floor division and nonnegative remainder. -/
def pyRoundDiv (n d : ℤ) : ℤ :=
  if 2 * (n % d) < d then n / d
  else if d < 2 * (n % d) then n / d + 1
  else if (n / d) % 2 = 0 then n / d else n / d + 1

/-- Embedding of `to_px` (src/main.py lines 383-387), the closure inside
`execute_commands` mapping a [0,1000] coordinate onto the virtual screen,
after the `int(float(val))` conversion has produced the integer `v`:
`if v <= 1000: return (vx if axis == "x" else vy) + int(round(v * (vw if axis == "x" else vh) / 1000))`
`return v`. -/
def to_px (vx vy vw vh : ℤ) (v : ℤ) (axis : String) : ℤ :=
  if v ≤ 1000 then
    (if axis = "x" then vx else vy) +
      pyRoundDiv (v * (if axis = "x" then vw else vh)) 1000
  else v

-- sanity: Int `/` and `%` are Euclidean (floor-like for positive divisor)
example : ((-3 : ℤ) / 2) = -2 := by decide
example : ((-3 : ℤ) % 1000) = 997 := by decide
-- sanity: round-half-even matches Python round on ties
example : pyRoundDiv 5 10 = 0 := by decide
example : pyRoundDiv 15 10 = 2 := by decide
example : pyRoundDiv 25 10 = 2 := by decide
example : to_px 0 0 1000 1000 250 "x" = 250 := by decide
example : to_px 0 0 1 1 1000 "x" = 1 := by decide

theorem pyRoundDiv_mono {n m : ℤ} (h : n ≤ m) :
    pyRoundDiv n 1000 ≤ pyRoundDiv m 1000 := by
  unfold pyRoundDiv
  split_ifs <;> omega

theorem pyRoundDiv_nonneg {n : ℤ} (h : 0 ≤ n) : 0 ≤ pyRoundDiv n 1000 := by
  unfold pyRoundDiv
  split_ifs <;> omega

theorem pyRoundDiv_le {n e : ℤ} (h0 : 0 ≤ n) (h : n ≤ 1000 * e) :
    pyRoundDiv n 1000 ≤ e := by
  unfold pyRoundDiv
  split_ifs <;> omega

theorem pyRoundDiv_thousand (e : ℤ) : pyRoundDiv (1000 * e) 1000 = e := by
  unfold pyRoundDiv
  split_ifs <;> omega

theorem pyRoundDiv_zero_num : pyRoundDiv 0 1000 = 0 := by decide

/-- Claim C1 (counterexample): with origin 0 and extent 1, `to_px` maps the
coordinate 1000 to 1, which is neither `origin + extent - 1 = 0` nor inside
`[origin, origin + extent - 1] = [0, 0]`, refuting the stated range and the
stated image of 1000. -/
theorem to_px_range_cex :
    to_px 0 0 1 1 1000 "x" = 1 ∧ 0 + 1 - 1 < to_px 0 0 1 1 1000 "x" := by
  decide

/-- Single-axis form of `to_px` with the origin/extent selection factored out. -/
def to_pxAx (o e u : ℤ) : ℤ :=
  if u ≤ 1000 then o + pyRoundDiv (u * e) 1000 else u

theorem to_px_eq_ax (vx vy vw vh v : ℤ) (axis : String) :
    to_px vx vy vw vh v axis =
      to_pxAx (if axis = "x" then vx else vy) (if axis = "x" then vw else vh) v :=
  rfl

theorem to_pxAx_mono {o e v v' : ℤ} (he : 1 ≤ e) (h0 : 0 ≤ v) (hvv : v ≤ v')
    (h1000 : v' ≤ 1000) : to_pxAx o e v ≤ to_pxAx o e v' := by
  unfold to_pxAx
  rw [if_pos (by omega : v ≤ 1000), if_pos h1000]
  exact add_le_add_left
    (pyRoundDiv_mono (mul_le_mul_of_nonneg_right hvv (by omega))) o

theorem to_pxAx_bounds {o e v : ℤ} (he : 1 ≤ e) (h0 : 0 ≤ v)
    (h1000 : v ≤ 1000) : o ≤ to_pxAx o e v ∧ to_pxAx o e v ≤ o + e := by
  unfold to_pxAx
  rw [if_pos h1000]
  have hn : 0 ≤ v * e := mul_nonneg h0 (by omega)
  have hub : v * e ≤ 1000 * e := mul_le_mul_of_nonneg_right h1000 (by omega)
  have := pyRoundDiv_nonneg hn
  have := pyRoundDiv_le hn hub
  constructor <;> omega

theorem to_pxAx_zero (o e : ℤ) : to_pxAx o e 0 = o := by
  unfold to_pxAx
  rw [if_pos (by omega : (0 : ℤ) ≤ 1000), zero_mul, pyRoundDiv_zero_num,
    add_zero]

theorem to_pxAx_full (o e : ℤ) : to_pxAx o e 1000 = o + e := by
  unfold to_pxAx
  rw [if_pos le_rfl, pyRoundDiv_thousand]

/-- Claim C1 (amended): for every axis with origin `o` and extent `e ≥ 1`,
`to_px` is monotone nondecreasing on [0,1000], its result lies within
`[o, o + e]` (not `[o, o + e - 1]`), and it maps 0 to `o` and 1000 to
`o + e` (not `o + e - 1`). -/
theorem to_px_mapping_amended (vx vy vw vh : ℤ) (axis : String) (v v' : ℤ)
    (he : 1 ≤ (if axis = "x" then vw else vh)) :
    (0 ≤ v → v ≤ v' → v' ≤ 1000 →
      to_px vx vy vw vh v axis ≤ to_px vx vy vw vh v' axis) ∧
    (0 ≤ v → v ≤ 1000 →
      (if axis = "x" then vx else vy) ≤ to_px vx vy vw vh v axis ∧
      to_px vx vy vw vh v axis ≤
        (if axis = "x" then vx else vy) + (if axis = "x" then vw else vh)) ∧
    to_px vx vy vw vh 0 axis = (if axis = "x" then vx else vy) ∧
    to_px vx vy vw vh 1000 axis =
      (if axis = "x" then vx else vy) + (if axis = "x" then vw else vh) := by
  simp only [to_px_eq_ax]
  exact ⟨fun h0 hvv h1000 => to_pxAx_mono he h0 hvv h1000,
    fun h0 h1000 => to_pxAx_bounds he h0 h1000,
    to_pxAx_zero _ _, to_pxAx_full _ _⟩

/-- Witness for the amended C1 at origin 2, extent 10 on the x axis. -/
theorem to_px_mapping_amended_witness :
    (1 : ℤ) ≤ 10 ∧
    to_px 2 0 10 5 3 "x" ≤ to_px 2 0 10 5 7 "x" ∧
    (2 : ℤ) ≤ to_px 2 0 10 5 3 "x" ∧
    to_px 2 0 10 5 1000 "x" = 12 := by
  have h := to_px_mapping_amended 2 0 10 5 "x" 3 7 (by decide)
  refine ⟨by decide, h.1 (by decide) (by decide) (by decide), ?_, ?_⟩
  · have := (h.2.1 (by decide) (by decide)).1
    simpa using this
  · have := h.2.2.2
    simpa using this

/-- Claim C9: a coordinate value strictly greater than 1000 is returned
unchanged by `to_px` - treated as an absolute pixel coordinate, not mapped
from the [0,1000] domain. -/
theorem to_px_passthrough (vx vy vw vh v : ℤ) (axis : String)
    (h : 1000 < v) : to_px vx vy vw vh v axis = v := by
  unfold to_px
  rw [if_neg (by omega)]

/-- Witness for C9 at the value 1001. -/
theorem to_px_passthrough_witness :
    (1000 : ℤ) < 1001 ∧ to_px 0 0 1920 1080 1001 "x" = 1001 :=
  ⟨by decide, to_px_passthrough 0 0 1920 1080 1001 "x" (by decide)⟩

/-- Embedding of `_mouse_abs` (src/main.py lines 278-283):
`x = max(vx, min(vx + vw - 1, px)) - vx` (same for y), then
`ax = int(round(x * 65535 / (vw - 1))) if vw > 1 else 0` and the final
`max(0, min(65535, ax))` clamp, with the local lets inlined. -/
def _mouse_abs (px py vx vy vw vh : ℤ) : ℤ × ℤ :=
  (max 0 (min 65535 (if 1 < vw then
      pyRoundDiv ((max vx (min (vx + vw - 1) px) - vx) * 65535) (vw - 1)
    else 0)),
   max 0 (min 65535 (if 1 < vh then
      pyRoundDiv ((max vy (min (vy + vh - 1) py) - vy) * 65535) (vh - 1)
    else 0)))

/-- Clamp `p` into the closed interval `[lo, hi]` (spec wording). -/
def clampTo (lo hi p : ℤ) : ℤ := max lo (min hi p)

/-- Written from the spec sentence for `moveCursor`: clamp the point into the
virtual screen rectangle, then map via
`a = round((p - origin) * 65535 / (extent - 1))` clamped into [0, 65535],
degenerating to 0 when the extent is at most 1. -/
def normAbsAxis (origin extent p : ℤ) : ℤ :=
  if extent ≤ 1 then 0
  else
    max 0 (min 65535
      (pyRoundDiv ((clampTo origin (origin + extent - 1) p - origin) * 65535)
        (extent - 1)))

theorem normAbsAxis_agrees (o e p : ℤ) :
    max 0 (min 65535 (if 1 < e then
        pyRoundDiv ((max o (min (o + e - 1) p) - o) * 65535) (e - 1)
      else 0)) = normAbsAxis o e p := by
  unfold normAbsAxis clampTo
  by_cases h : 1 < e
  · rw [if_pos h, if_neg (by omega)]
  · rw [if_neg h, if_pos (by omega)]
    decide

/-- Claim C7: `_mouse_abs` first clamps the pixel into the virtual screen
rectangle, then on each axis computes `round((p - origin) * 65535 / (extent - 1))`
clamped into [0, 65535], and yields 0 on any axis whose extent is ≤ 1. -/
theorem mouse_abs_normalization (px py vx vy vw vh : ℤ) :
    _mouse_abs px py vx vy vw vh = (normAbsAxis vx vw px, normAbsAxis vy vh py) ∧
    (0 ≤ (_mouse_abs px py vx vy vw vh).1 ∧
      (_mouse_abs px py vx vy vw vh).1 ≤ 65535) ∧
    (0 ≤ (_mouse_abs px py vx vy vw vh).2 ∧
      (_mouse_abs px py vx vy vw vh).2 ≤ 65535) ∧
    (vw ≤ 1 → (_mouse_abs px py vx vy vw vh).1 = 0) ∧
    (vh ≤ 1 → (_mouse_abs px py vx vy vw vh).2 = 0) := by
  refine ⟨?_, ⟨le_max_left _ _, max_le (by omega) (min_le_left _ _)⟩,
    ⟨le_max_left _ _, max_le (by omega) (min_le_left _ _)⟩, ?_, ?_⟩
  · unfold _mouse_abs
    rw [normAbsAxis_agrees, normAbsAxis_agrees]
  · intro h
    show max 0 (min 65535 (if 1 < vw then _ else 0)) = 0
    rw [if_neg (by omega)]
    decide
  · intro h
    show max 0 (min 65535 (if 1 < vh then _ else 0)) = 0
    rw [if_neg (by omega)]
    decide

/-! ### Command parser (src/main.py lines 201-233) -/

/-- Whitespace in the sense of Python `str.strip()` / `str.split()`
(restricted to the ASCII whitespace characters). -/
def pyIsSpace (c : Char) : Bool :=
  c = ' ' || c = '\t' || c = '\n' || c = '\r' || c = '\x0b' || c = '\x0c'

/-- Python `line.strip()`: drop leading and trailing whitespace. -/
def pyStrip (l : List Char) : List Char :=
  ((l.dropWhile pyIsSpace).reverse.dropWhile pyIsSpace).reverse

/-- Python `s.split()` with no separator: maximal runs of non-whitespace. -/
def splitWs (l : List Char) : List (List Char) :=
  (l.foldr (fun c acc =>
    if pyIsSpace c then [] :: acc
    else match acc with
      | [] => [[c]]
      | t :: ts => (c :: t) :: ts) []).filter (fun t => !t.isEmpty)

/-- Python `line.split(None, 1)`: the first whitespace-delimited token and
the remainder with its leading whitespace removed. -/
def splitOnce (l : List Char) : List Char × List Char :=
  ((l.dropWhile pyIsSpace).takeWhile (fun c => !pyIsSpace c),
   ((l.dropWhile pyIsSpace).dropWhile (fun c => !pyIsSpace c)).dropWhile pyIsSpace)

/-- Python `content.split("\n")`: split at every newline, keeping empties. -/
def splitLines (l : List Char) : List (List Char) :=
  l.foldr (fun c acc =>
    if c = '\n' then [] :: acc
    else match acc with
      | [] => [[c]]
      | t :: ts => (c :: t) :: ts) [[]]

/-- One iteration of the `parse_commands` loop (src/main.py lines 203-232):
strip the line, skip empty and `#` lines, uppercase the first token, then
the kind-specific argument handling. Yields `[]` where the source emits no
command for the line. -/
def parse_line (rawLine : List Char) : List (String × List String) :=
  if (pyStrip rawLine).isEmpty then []
  else if (pyStrip rawLine).head? = some '#' then []
  else if ((splitOnce (pyStrip rawLine)).1.map Char.toUpper) = "CLICK".toList then
    (if 2 ≤ (splitWs (splitOnce (pyStrip rawLine)).2).length then
      [("click", ((splitWs (splitOnce (pyStrip rawLine)).2).take 2).map String.mk)]
     else [])
  else if ((splitOnce (pyStrip rawLine)).1.map Char.toUpper) = "DRAG".toList then
    (if 4 ≤ (splitWs (splitOnce (pyStrip rawLine)).2).length then
      [("drag", ((splitWs (splitOnce (pyStrip rawLine)).2).take 4).map String.mk)]
     else [])
  else if ((splitOnce (pyStrip rawLine)).1.map Char.toUpper) = "TYPE".toList then
    [("type", [String.mk (splitOnce (pyStrip rawLine)).2])]
  else if ((splitOnce (pyStrip rawLine)).1.map Char.toUpper) = "KEY".toList then
    (match splitWs (splitOnce (pyStrip rawLine)).2 with
     | [] => []
     | a :: _ => [("key", [String.mk (a.map Char.toLower)])])
  else if ((splitOnce (pyStrip rawLine)).1.map Char.toUpper) = "PYTHON_EXECUTE".toList then
    [("python_execute", [String.mk (splitOnce (pyStrip rawLine)).2])]
  else if ((splitOnce (pyStrip rawLine)).1.map Char.toUpper) = "WAIT".toList then
    (match splitWs (splitOnce (pyStrip rawLine)).2 with
     | [] => []
     | a :: _ => [("wait", [String.mk a])])
  else []

/-- Embedding of `parse_commands` (src/main.py lines 201-233). -/
def parse_commands (content : String) : List (String × List String) :=
  ((splitLines content.toList).map parse_line).flatten

-- sanity checks mirroring the spec's parser examples
example : parse_commands "" = [] := by decide
example : parse_commands "CLICK 500 500\nKEY enter" =
    [("click", ["500", "500"]), ("key", ["enter"])] := by decide
example : parse_commands "FOO bar\n# comment\nWAIT 100" =
    [("wait", ["100"])] := by decide

theorem splitLines_no_newline (l : List Char) (h : '\n' ∉ l) :
    splitLines l = [l] := by
  induction l with
  | nil => rfl
  | cons c t ih =>
    have hc : ¬ (c = '\n') := fun hh => h (hh ▸ List.mem_cons_self c t)
    have ht : '\n' ∉ t := fun hh => h (List.mem_cons_of_mem c hh)
    show (if c = '\n' then [] :: splitLines t
      else match splitLines t with
        | [] => [[c]]
        | t' :: ts => (c :: t') :: ts) = [c :: t]
    rw [if_neg hc, ih ht]

theorem parse_commands_single_line (line : String) (h : '\n' ∉ line.toList) :
    parse_commands line = parse_line line.toList := by
  unfold parse_commands
  rw [splitLines_no_newline _ h]
  simp

theorem splitOnce_hash (r : List Char) :
    (splitOnce ('#' :: r)).1 = '#' :: r.takeWhile (fun x => !pyIsSpace x) := by
  have h1 : pyIsSpace '#' = false := by decide
  unfold splitOnce
  simp [List.dropWhile_cons, List.takeWhile_cons, h1]

theorem parse_line_click (l : List Char)
    (hcmd : ((splitOnce (pyStrip l)).1).map Char.toUpper = "CLICK".toList) :
    parse_line l = (if 2 ≤ (splitWs (splitOnce (pyStrip l)).2).length
      then [("click", ((splitWs (splitOnce (pyStrip l)).2).take 2).map String.mk)]
      else []) := by
  cases hl : pyStrip l with
  | nil =>
    rw [hl] at hcmd
    exact absurd hcmd (by decide)
  | cons c rest =>
    by_cases hc : c = '#'
    · subst hc
      rw [hl, splitOnce_hash rest, List.map_cons] at hcmd
      have hC : "CLICK".toList = ['C', 'L', 'I', 'C', 'K'] := by decide
      rw [hC] at hcmd
      simp only [List.cons.injEq] at hcmd
      exact absurd hcmd.1 (by decide)
    · unfold parse_line
      rw [hl] at hcmd ⊢
      rw [if_neg (by simp), if_neg (by simp [hc]), if_pos hcmd]

theorem parse_line_drag (l : List Char)
    (hcmd : ((splitOnce (pyStrip l)).1).map Char.toUpper = "DRAG".toList) :
    parse_line l = (if 4 ≤ (splitWs (splitOnce (pyStrip l)).2).length
      then [("drag", ((splitWs (splitOnce (pyStrip l)).2).take 4).map String.mk)]
      else []) := by
  cases hl : pyStrip l with
  | nil =>
    rw [hl] at hcmd
    exact absurd hcmd (by decide)
  | cons c rest =>
    by_cases hc : c = '#'
    · subst hc
      rw [hl, splitOnce_hash rest, List.map_cons] at hcmd
      have hD : "DRAG".toList = ['D', 'R', 'A', 'G'] := by decide
      rw [hD] at hcmd
      simp only [List.cons.injEq] at hcmd
      exact absurd hcmd.1 (by decide)
    · unfold parse_line
      rw [hl] at hcmd ⊢
      rw [if_neg (by simp), if_neg (by simp [hc]), hcmd,
        if_neg (by decide), if_pos rfl]

/-- Claim C3 (counterexample): the line `CLICK 1 2 3` has three remainder
tokens (not exactly two), and `CLICK a b` has two non-numeric remainder
tokens; the parser emits a click for both instead of dropping them. -/
theorem parse_click_arity_cex :
    parse_commands "CLICK 1 2 3" = [("click", ["1", "2"])] ∧
    (splitWs (splitOnce (pyStrip "CLICK 1 2 3".toList)).2).length = 3 ∧
    parse_commands "CLICK a b" = [("click", ["a", "b"])] := by
  refine ⟨by decide, by decide, by decide⟩

/-- Claim C3 (amended): for a single line whose first whitespace-delimited
token is CLICK (resp. DRAG) case-insensitively, `parse_commands` emits one
click (drag) command holding the first 2 (4) remainder tokens - whether or
not they are numeric - exactly when the remainder consists of at least 2 (4)
whitespace-delimited tokens, and otherwise drops the line silently
(parsing is total, so it never raises). -/
theorem parse_click_drag_amended (line : String) (hnl : '\n' ∉ line.toList) :
    (((splitOnce (pyStrip line.toList)).1.map Char.toUpper = "CLICK".toList) →
      parse_commands line =
        (if 2 ≤ (splitWs (splitOnce (pyStrip line.toList)).2).length
         then [("click",
           ((splitWs (splitOnce (pyStrip line.toList)).2).take 2).map String.mk)]
         else [])) ∧
    (((splitOnce (pyStrip line.toList)).1.map Char.toUpper = "DRAG".toList) →
      parse_commands line =
        (if 4 ≤ (splitWs (splitOnce (pyStrip line.toList)).2).length
         then [("drag",
           ((splitWs (splitOnce (pyStrip line.toList)).2).take 4).map String.mk)]
         else [])) := by
  constructor
  · intro hcmd
    rw [parse_commands_single_line line hnl]
    exact parse_line_click line.toList hcmd
  · intro hcmd
    rw [parse_commands_single_line line hnl]
    exact parse_line_drag line.toList hcmd

/-- Witness for the amended C3 on the lines `CLICK 5 7` and `drag 1 2 3 4`. -/
theorem parse_click_drag_amended_witness :
    parse_commands "CLICK 5 7" = [("click", ["5", "7"])] ∧
    parse_commands "drag 1 2 3 4" = [("drag", ["1", "2", "3", "4"])] :=
  ⟨Eq.trans ((parse_click_drag_amended "CLICK 5 7" (by decide)).1 (by decide))
    (by decide),
   Eq.trans ((parse_click_drag_amended "drag 1 2 3 4" (by decide)).2 (by decide))
    (by decide)⟩

/-- Witness for C7 on a degenerate 1-wide screen and a 1080-tall screen. -/
theorem mouse_abs_normalization_witness :
    _mouse_abs 400 300 0 0 1 1080 = (normAbsAxis 0 1 400, normAbsAxis 0 1080 300) ∧
    (1 : ℤ) ≤ 1 ∧ (_mouse_abs 400 300 0 0 1 1080).1 = 0 ∧
    0 ≤ (_mouse_abs 400 300 0 0 1 1080).2 ∧
    (_mouse_abs 400 300 0 0 1 1080).2 ≤ 65535 := by
  have h := mouse_abs_normalization 400 300 0 0 1 1080
  exact ⟨h.1, by decide, h.2.2.2.1 (by decide), h.2.2.1.1, h.2.2.1.2⟩

/-! ### Sandboxed Python evaluator (src/main.py lines 316-375) -/

/-- Values living in the sandbox namespace: the integers the agent's
calculation snippets produce, plus the `__builtins__` dictionary entry. -/
inductive PyVal
  | int (n : ℤ)
  | builtinsDict
deriving DecidableEq

/-- A Python dict as an insertion-ordered association list with unique keys,
matching dict iteration order. -/
abbrev NS := List (String × PyVal)

/-- `str(value)` for the values above. -/
def pyStr : PyVal → String
  | .int n => toString n
  | .builtinsDict => "builtins"

/-- Python `d[k] = v`: overwrite in place if the key exists (keeping its
position), otherwise append, preserving insertion order. -/
def dictSet (d : NS) (k : String) (v : PyVal) : NS :=
  if d.any (fun p => p.1 == k) then
    d.map (fun p => if p.1 == k then (k, v) else p)
  else d ++ [(k, v)]

/-- The keys of `safe_builtins` (src/main.py lines 323-353). -/
def safeBuiltinNames : List String :=
  ["abs", "all", "any", "bin", "bool", "chr", "dict", "enumerate", "filter",
   "float", "hex", "int", "len", "list", "map", "max", "min", "oct", "ord",
   "pow", "range", "reversed", "round", "set", "sorted", "str", "sum",
   "tuple", "zip"]

/-- Python `k.startswith("__")`. -/
def startsWithDunder (s : String) : Bool := s.toList.take 2 == ['_', '_']

/-- `namespace = {"__builtins__": safe_builtins, **context}`
(src/main.py line 355). -/
def seedNs (ctx : NS) : NS :=
  ctx.foldl (fun d p => dictSet d p.1 p.2) [("__builtins__", .builtinsDict)]

/-- Outcome of running `exec(code, namespace)`: the final namespace, or an
exception with its type name and message. -/
inductive ExecOutcome
  | ok (ns : NS)
  | exn (kind msg : String)
deriving DecidableEq

/-- Embedding of `execute_python` (src/main.py lines 316-375), parametric in
the semantics `execPy` of `exec(code, namespace)`: on success, keep the
namespace entries neither named like an allow-list builtin nor starting with
`__`, report entries absent from the input context as `name = value` joined
by `"; "` (`OK` when none); on an exception return
`ERROR: <kind>: <message>` with the context unchanged. -/
def execute_python (execPy : String → NS → ExecOutcome) (code : String)
    (context : NS) : String × NS :=
  match execPy code (seedNs context) with
  | .ok ns =>
    (if ((ns.filter (fun p =>
            !(safeBuiltinNames.contains p.1) && !(startsWithDunder p.1))).filter
          (fun p => !(context.any (fun q => q.1 == p.1)))).map
          (fun p => p.1 ++ " = " ++ pyStr p.2) |>.isEmpty
     then "OK"
     else String.intercalate "; "
       (((ns.filter (fun p =>
            !(safeBuiltinNames.contains p.1) && !(startsWithDunder p.1))).filter
          (fun p => !(context.any (fun q => q.1 == p.1)))).map
          (fun p => p.1 ++ " = " ++ pyStr p.2)),
     ns.filter (fun p =>
       !(safeBuiltinNames.contains p.1) && !(startsWithDunder p.1)))
  | .exn kind msg => ("ERROR: " ++ kind ++ ": " ++ msg, context)

/-! A small interpreter giving `exec` a concrete semantics on the fragment
the spec's examples use: one statement, either `name = expr` or a bare
expression, where `expr` is integer arithmetic over `+`, `*`, decimal
literals and variables. It reports SyntaxError / NameError / TypeError as
CPython does on this fragment. -/

inductive PyTok
  | num (n : ℤ)
  | ident (s : String)
  | mulOp
  | addOp
deriving DecidableEq

/-- Valid Python identifier (ASCII fragment). -/
def identOk : List Char → Bool
  | [] => false
  | c :: r => (c.isAlpha || c = '_') && r.all (fun x => x.isAlphanum || x = '_')

def digitsVal (ch : List Char) : ℤ :=
  (ch.foldl (fun a c => a * 10 + (c.toNat - '0'.toNat)) 0 : ℕ)

/-- Split an expression into chunks: maximal words, with `*` and `+` as
singleton chunks and whitespace discarded. -/
def lexChunks (l : List Char) : List (List Char) :=
  (l.foldr (fun c acc =>
    if pyIsSpace c then [] :: acc
    else if c = '*' || c = '+' then [] :: [c] :: acc
    else match acc with
      | [] => [[c]]
      | t :: ts => (c :: t) :: ts) []).filter (fun t => !t.isEmpty)

def chunkToTok (ch : List Char) : Except (String × String) PyTok :=
  if ch = ['*'] then .ok .mulOp
  else if ch = ['+'] then .ok .addOp
  else if !ch.isEmpty && ch.all Char.isDigit then .ok (.num (digitsVal ch))
  else if identOk ch then .ok (.ident (String.mk ch))
  else .error ("SyntaxError", "invalid syntax")

def nsLookup (ns : NS) (k : String) : Option PyVal :=
  (ns.find? (fun p => p.1 == k)).map Prod.snd

def resolveAtom (ns : NS) : PyTok → Except (String × String) ℤ
  | .num n => .ok n
  | .ident s =>
    match nsLookup ns s with
    | some (.int n) => .ok n
    | some _ => .error ("TypeError", "unsupported operand type")
    | none => .error ("NameError", "name " ++ s ++ " is not defined")
  | _ => .error ("SyntaxError", "invalid syntax")

/-- Read the `(op, atom)*` tail of an expression; `true` marks `+`. -/
def parseOpTail : List PyTok → Except (String × String) (List (Bool × PyTok))
  | [] => .ok []
  | .addOp :: t :: rest => (parseOpTail rest).map (fun l => (true, t) :: l)
  | .mulOp :: t :: rest => (parseOpTail rest).map (fun l => (false, t) :: l)
  | _ => .error ("SyntaxError", "invalid syntax")

/-- Evaluate `sum + prod op₁ v₁ op₂ v₂ …` with `*` binding tighter than `+`. -/
def evalChain (sum prod : ℤ) : List (Bool × ℤ) → ℤ
  | [] => sum + prod
  | (true, v) :: r => evalChain (sum + prod) v r
  | (false, v) :: r => evalChain sum (prod * v) r

def evalExpr (ns : NS) (l : List Char) : Except (String × String) ℤ := do
  let toks ← (lexChunks l).mapM chunkToTok
  match toks with
  | [] => .error ("SyntaxError", "invalid syntax")
  | t :: rest => do
    let v ← resolveAtom ns t
    let ops ← parseOpTail rest
    let vals ← ops.mapM (fun p => (resolveAtom ns p.2).map (fun w => (p.1, w)))
    pure (evalChain 0 v vals)

/-- `lhs = rhs` split at the first `=`, when one occurs. -/
def splitAssign (l : List Char) : Option (List Char × List Char) :=
  if l.contains '=' then
    some (l.takeWhile (fun c => c != '='), (l.dropWhile (fun c => c != '=')).drop 1)
  else none

/-- Concrete semantics of `exec` on the single-statement arithmetic fragment. -/
def miniExec (code : String) (ns : NS) : ExecOutcome :=
  match splitAssign code.toList with
  | some (lhs, rhs) =>
    if identOk (pyStrip lhs) then
      match evalExpr ns rhs with
      | .ok v => .ok (dictSet ns (String.mk (pyStrip lhs)) (.int v))
      | .error (k, m) => .exn k m
    else .exn "SyntaxError" "cannot assign to this target"
  | none =>
    match evalExpr ns code.toList with
    | .ok _ => .ok ns
    | .error (k, m) => .exn k m

-- sanity
example : miniExec "result = 2*6" (seedNs []) =
    .ok [("__builtins__", .builtinsDict), ("result", .int 12)] := by decide
example : miniExec "garbage" (seedNs []) =
    .exn "NameError" "name garbage is not defined" := by decide

/-- Claim C4: if executing the code raises, `execute_python` returns the
input context unchanged together with `"ERROR: <kind>: <message>"`; the
embedding is a total function, so the call always returns a value and can
never itself raise. -/
theorem execute_python_error (execPy : String → NS → ExecOutcome)
    (code : String) (ctx : NS) (kind msg : String)
    (h : execPy code (seedNs ctx) = .exn kind msg) :
    execute_python execPy code ctx = ("ERROR: " ++ kind ++ ": " ++ msg, ctx) := by
  unfold execute_python
  rw [h]

/-- Witness for C4: the undefined name `garbage` raises NameError and the
context flows through unchanged. -/
theorem execute_python_error_witness :
    execute_python miniExec "garbage" [("k", PyVal.int 7)] =
      ("ERROR: NameError: name garbage is not defined", [("k", PyVal.int 7)]) :=
  execute_python_error miniExec "garbage" [("k", PyVal.int 7)] "NameError"
    "name garbage is not defined" (by decide)

/-- Written from the spec: after a successful execution, the new bindings
are the namespace entries neither in the allow-list nor present… kept here
as the entries neither named like an allow-list builtin nor `__`-prefixed. -/
def newBindings (ns : NS) : NS :=
  ns.filter (fun p => !(safeBuiltinNames.contains p.1) && !(startsWithDunder p.1))

/-- Written from the spec: the result summary lists the bindings absent from
the input context as `name = value` pairs in creation order joined by
`"; "`, or the literal `OK` if none were created. -/
def summaryOf (context : NS) (nc : NS) : String :=
  if ((nc.filter (fun p => !(context.any (fun q => q.1 == p.1)))).map
      (fun p => p.1 ++ " = " ++ pyStr p.2)).isEmpty
  then "OK"
  else String.intercalate "; "
    ((nc.filter (fun p => !(context.any (fun q => q.1 == p.1)))).map
      (fun p => p.1 ++ " = " ++ pyStr p.2))

/-- Claim C5: on success the result summary lists exactly the new bindings
as `name = value` pairs in creation order joined by `"; "` (`OK` when none),
and concretely `execute("result = 2*6", {})` yields summary `result = 12`
with context `{result: 12}`, and a subsequent execution against that
returned context observes the binding. -/
theorem execute_python_summary :
    (∀ (execPy : String → NS → ExecOutcome) (code : String) (ctx ns : NS),
      execPy code (seedNs ctx) = .ok ns →
        execute_python execPy code ctx =
          (summaryOf ctx (newBindings ns), newBindings ns)) ∧
    execute_python miniExec "result = 2*6" [] =
      ("result = 12", [("result", PyVal.int 12)]) ∧
    execute_python miniExec "result2 = result + 1" [("result", PyVal.int 12)] =
      ("result2 = 13", [("result", PyVal.int 12), ("result2", PyVal.int 13)]) := by
  refine ⟨?_, by decide, by decide⟩
  intro execPy code ctx ns h
  unfold execute_python newBindings summaryOf
  rw [h]

/-- Witness for the universally quantified part of C5 at `x = 1 + 1`. -/
theorem execute_python_summary_witness :
    execute_python miniExec "x = 1 + 1" [] = ("x = 2", [("x", PyVal.int 2)]) :=
  Eq.trans
    (execute_python_summary.1 miniExec "x = 1 + 1" []
      [("__builtins__", PyVal.builtinsDict), ("x", PyVal.int 2)] (by decide))
    (by decide)

/-- Claim C10 (counterexample): when execution raises, the input context is
returned verbatim, so a context already holding the allow-list name `sum`
reaches the caller - refuting the claim for every code string and context. -/
theorem sandbox_context_keys_cex :
    execute_python miniExec "garbage" [("sum", PyVal.int 5)] =
      ("ERROR: NameError: name garbage is not defined", [("sum", PyVal.int 5)]) ∧
    safeBuiltinNames.contains "sum" = true :=
  ⟨by decide, by decide⟩

/-- Claim C10 (amended): whenever execution succeeds, the returned context
contains no allow-list name and no key starting with `__`; bindings created
under such names are silently dropped from the returned context, and hence
from the result summary, which draws only on it. (On an exception the input
context is returned verbatim instead.) -/
theorem sandbox_context_keys_amended (execPy : String → NS → ExecOutcome)
    (code : String) (ctx ns : NS) (h : execPy code (seedNs ctx) = .ok ns) :
    ∀ p ∈ (execute_python execPy code ctx).2,
      safeBuiltinNames.contains p.1 = false ∧ startsWithDunder p.1 = false := by
  intro p hp
  unfold execute_python at hp
  rw [h] at hp
  simp only [List.mem_filter, Bool.and_eq_true, Bool.not_eq_true'] at hp
  exact hp.2

/-- Witness for the amended C10: `sum = 3` creates a binding shadowing an
allow-list name; it is dropped and the summary is `OK`. -/
theorem sandbox_context_keys_amended_witness :
    execute_python miniExec "sum = 3" [] = ("OK", []) ∧
    (∀ p ∈ (execute_python miniExec "sum = 3" []).2,
      safeBuiltinNames.contains p.1 = false ∧ startsWithDunder p.1 = false) :=
  ⟨by decide,
   sandbox_context_keys_amended miniExec "sum = 3" []
     [("__builtins__", PyVal.builtinsDict), ("sum", PyVal.int 3)] (by decide)⟩

/-! ### Command dispatcher (src/main.py lines 377-450) -/

/-- Models `int(float(val))` / `float(val)` on the (optionally signed)
decimal-integer tokens the command language uses; other float syntax is
outside the modelled fragment and counts as a ValueError. -/
def parseNum (s : String) : Option ℤ :=
  match s.toList with
  | '-' :: ds =>
    if !ds.isEmpty && ds.all Char.isDigit then some (-(digitsVal ds)) else none
  | ds =>
    if !ds.isEmpty && ds.all Char.isDigit then some (digitsVal ds) else none

/-- One side-effecting primitive invocation performed while dispatching:
cursor moves and clicks (`_mouse_move`, `_mouse_click`, raw button events),
text/key injection, `time.sleep` - its duration recorded in milliseconds,
the source passing `duration / 1000` seconds to `sleep` - and a sandbox
execution. Console prints are not side effects of this kind. -/
inductive Call
  | mouseMove (px py : ℤ)
  | mouseClick
  | leftDown
  | leftUp
  | typeText (s : String)
  | keyVk (vk : ℕ)
  | sleepMs (ms : ℤ)
  | pyExec (code : String)
deriving DecidableEq

/-- `VK_MAP` (src/main.py lines 389-404). -/
def VK_MAP : List (String × ℕ) :=
  [("enter", 0x0D), ("escape", 0x1B), ("esc", 0x1B), ("tab", 0x09),
   ("windows", 0x5B), ("win", 0x5B), ("backspace", 0x08), ("delete", 0x2E),
   ("del", 0x2E), ("space", 0x20), ("up", 0x26), ("down", 0x28),
   ("left", 0x25), ("right", 0x27)]

/-- One iteration of the dispatch loop in `execute_commands` (src/main.py
lines 408-448): returns the result lines appended, the updated sandbox
context, and the primitive calls made. The per-command `try/except` is
modelled by the error-result branches (a ValueError from `float`, a
ValueError from a negative sleep, an IndexError from missing arguments).
Python `min(10.0, ms)` is written `if ms < 10 then ms else 10`. -/
def dispatch1 (execPy : String → NS → ExecOutcome) (vx vy vw vh : ℤ)
    (action : String) (args : List String) (ctx : NS) :
    List String × NS × List Call :=
  if action = "click" ∧ 2 ≤ args.length then
    match parseNum (args.getD 0 ""), parseNum (args.getD 1 "") with
    | some u, some v =>
      ([], ctx,
       [.mouseMove (to_px vx vy vw vh u "x") (to_px vx vy vw vh v "y"),
        .sleepMs 20, .mouseClick, .sleepMs 50])
    | _, _ => (["ERROR click: ValueError"], ctx, [])
  else if action = "drag" ∧ 4 ≤ args.length then
    match parseNum (args.getD 0 ""), parseNum (args.getD 1 ""),
        parseNum (args.getD 2 ""), parseNum (args.getD 3 "") with
    | some a, some b, some c, some d =>
      ([], ctx,
       [.mouseMove (to_px vx vy vw vh a "x") (to_px vx vy vw vh b "y"),
        .sleepMs 20, .leftDown, .sleepMs 60,
        .mouseMove (to_px vx vy vw vh c "x") (to_px vx vy vw vh d "y"),
        .sleepMs 40, .leftUp, .sleepMs 50])
    | _, _, _, _ => (["ERROR drag: ValueError"], ctx, [])
  else if action = "type" then
    match args with
    | t :: _ => ([], ctx, [.typeText t, .sleepMs 40])
    | [] => (["ERROR type: IndexError"], ctx, [])
  else if action = "key" then
    match args with
    | k :: _ =>
      match VK_MAP.find? (fun p => p.1 == String.mk (k.toList.map Char.toLower)) with
      | some p => ([], ctx, [.keyVk p.2, .sleepMs 50])
      | none => ([], ctx, [])
    | [] => (["ERROR key: IndexError"], ctx, [])
  else if action = "python_execute" then
    match args with
    | code :: _ =>
      (["PYTHON: " ++ code ++ " → " ++ (execute_python execPy code ctx).1],
       (execute_python execPy code ctx).2, [.pyExec code])
    | [] => (["ERROR python_execute: IndexError"], ctx, [])
  else if action = "wait" then
    match args with
    | a :: _ =>
      match parseNum a with
      | some ms =>
        if ms < 0 then (["ERROR wait: ValueError"], ctx, [])
        else ([], ctx, [.sleepMs (if ms < 10 then ms else 10)])
      | none => (["ERROR wait: ValueError"], ctx, [])
    | [] => (["ERROR wait: IndexError"], ctx, [])
  else ([], ctx, [])

/-- Embedding of `execute_commands` (src/main.py lines 377-450): dispatch
each command in order, threading the sandbox context and accumulating the
execution results and the primitive calls. -/
def execute_commands (execPy : String → NS → ExecOutcome)
    (commands : List (String × List String)) (vs : ℤ × ℤ × ℤ × ℤ)
    (ctx : NS) : List String × NS × List Call :=
  match commands with
  | [] => ([], ctx, [])
  | (action, args) :: rest =>
    match dispatch1 execPy vs.1 vs.2.1 vs.2.2.1 vs.2.2.2 action args ctx with
    | (rs, ctx1, ev) =>
      match execute_commands execPy rest vs ctx1 with
      | (rs2, ctx2, ev2) => (rs ++ rs2, ctx2, ev ++ ev2)

theorem dispatch1_wait (execPy : String → NS → ExecOutcome)
    (vx vy vw vh : ℤ) (ctx : NS) (s : String) (ms : ℤ)
    (h : parseNum s = some ms) (h0 : 0 ≤ ms) :
    dispatch1 execPy vx vy vw vh "wait" [s] ctx =
      ([], ctx, [.sleepMs (if ms < 10 then ms else 10)]) := by
  unfold dispatch1
  rw [if_neg (fun hc => by exact absurd hc.1 (by decide)),
    if_neg (fun hc => by exact absurd hc.1 (by decide)),
    if_neg (by decide), if_neg (by decide), if_neg (by decide), if_pos rfl]
  simp only [h]
  rw [if_neg (by omega)]

/-- Claim C8: a dispatched wait whose argument parses to `ms ≥ 0` sleeps for
`min(10, ms)/1000` seconds, i.e. `min 10 ms` milliseconds - the pause never
exceeds 10 milliseconds, whatever value was requested. -/
theorem wait_sleep_capped (execPy : String → NS → ExecOutcome)
    (vs : ℤ × ℤ × ℤ × ℤ) (ctx : NS) (s : String) (ms : ℤ)
    (h : parseNum s = some ms) (h0 : 0 ≤ ms) :
    execute_commands execPy [("wait", [s])] vs ctx =
      ([], ctx, [.sleepMs (if ms < 10 then ms else 10)]) ∧
    (if ms < 10 then ms else 10) = min 10 ms ∧
    (if ms < 10 then ms else 10) ≤ 10 := by
  refine ⟨?_, ?_, by split_ifs <;> omega⟩
  · simp only [execute_commands]
    rw [dispatch1_wait execPy vs.1 vs.2.1 vs.2.2.1 vs.2.2.2 ctx s ms h h0]
    simp
  · rw [min_def]
    split_ifs <;> omega

/-- Witness for C8 at a requested 500 ms wait: a 10 ms sleep. -/
theorem wait_sleep_capped_witness :
    parseNum "500" = some 500 ∧ (0 : ℤ) ≤ 500 ∧
    execute_commands miniExec [("wait", ["500"])] (0, 0, 1920, 1080) [] =
      ([], [], [.sleepMs 10]) := by
  have h := wait_sleep_capped miniExec (0, 0, 1920, 1080) [] "500" 500
    (by decide) (by decide)
  exact ⟨by decide, by decide, Eq.trans h.1 (by decide)⟩

/-- Claim C2: dispatching the parsed plan `"CLICK 250 800\nWAIT 500"` on the
screen rectangle (0, 0, 1000, 1000) produces exactly one click, at pixel
(250, 800) - 25% of the width and 80% of the height - but the subsequent
pause is `min(10, 500) = 10` milliseconds, NOT the at-least-500 ms pause the
claim requires: the `min` clamps every requested wait down to 10 ms. -/
theorem click_wait_trace :
    execute_commands miniExec (parse_commands "CLICK 250 800\nWAIT 500")
        (0, 0, 1000, 1000) [] =
      ([], [],
       [.mouseMove 250 800, .sleepMs 20, .mouseClick, .sleepMs 50,
        .sleepMs 10]) ∧
    (10 : ℤ) < 500 :=
  ⟨by decide, by decide⟩

/-! ### PNG encoder (src/main.py lines 125-181) -/

/-- `struct.pack(">I", n)`: four big-endian bytes (for `n < 2^32`). -/
def be32 (n : ℕ) : List ℕ :=
  [n / 2 ^ 24 % 256, n / 2 ^ 16 % 256, n / 2 ^ 8 % 256, n % 256]

/-- The bytes of `b"IHDR"`. -/
def ihdrTag : List ℕ := [73, 72, 68, 82]

/-- The bytes of `b"IDAT"`. -/
def idatTag : List ℕ := [73, 68, 65, 84]

/-- The bytes of `b"IEND"`. -/
def iendTag : List ℕ := [73, 69, 78, 68]

/-- The PNG signature `b"\x89PNG\r\n\x1a\n"`. -/
def pngSig : List ℕ := [137, 80, 78, 71, 13, 10, 26, 10]

/-- Embedding of the local `_chunk` (src/main.py lines 179-180), parametric
in the CRC32 function: length, tag, payload, then
`crc32(tag + data) & 0xFFFFFFFF` big-endian. -/
def pngChunk (crc : List ℕ → ℕ) (tag data : List ℕ) : List ℕ :=
  be32 data.length ++ tag ++ data ++ be32 (crc (tag ++ data) % 2 ^ 32)

/-- The `raw` loop of `_rgba_to_png` (src/main.py lines 172-176): for each
row append a zero filter byte then the row's slice
`rgba[y*stride:(y+1)*stride]` with `stride = w*4`. -/
def pngRaw (rgba : List ℕ) (wv hv : ℕ) : List ℕ :=
  (List.range hv).foldl
    (fun acc y => acc ++ 0 :: ((rgba.drop (y * (wv * 4))).take (wv * 4))) []

/-- Embedding of `_rgba_to_png` (src/main.py lines 171-181), parametric in
`zlib.compress` and `zlib.crc32`: signature, IHDR with
`struct.pack(">IIBBBBB", w, h, 8, 6, 0, 0, 0)`, IDAT holding the compressed
raw scanlines, and an empty IEND. -/
def _rgba_to_png (compress : List ℕ → List ℕ) (crc : List ℕ → ℕ)
    (rgba : List ℕ) (wv hv : ℕ) : List ℕ :=
  pngSig ++ pngChunk crc ihdrTag (be32 wv ++ be32 hv ++ [8, 6, 0, 0, 0]) ++
    pngChunk crc idatTag (compress (pngRaw rgba wv hv)) ++
    pngChunk crc iendTag []

/-- The channel reordering of `capture_screen` (src/main.py lines 164-168):
`rgba[0::4] = bgra[2::4]; rgba[1::4] = bgra[1::4]; rgba[2::4] = bgra[0::4];`
`rgba[3::4] = b"\xff" * (size // 4)` - BGRA to RGBA with alpha forced to
255 everywhere. -/
def bgra_to_rgba (bgra : List ℕ) : List ℕ :=
  (List.range bgra.length).map (fun i =>
    if i % 4 = 0 then bgra.getD (i + 2) 0
    else if i % 4 = 1 then bgra.getD i 0
    else if i % 4 = 2 then bgra.getD (i - 2) 0
    else 255)

/-- Written from the spec: the `hv` scanlines, each prefixed by a zero
"no filter" byte. -/
def scanlineRows (rgba : List ℕ) (wv hv : ℕ) : List (List ℕ) :=
  (List.range hv).map (fun y => 0 :: ((rgba.drop (y * (wv * 4))).take (wv * 4)))

theorem foldl_append_eq_flatten {α β : Type} (f : α → List β) :
    ∀ (l : List α) (init : List β),
      l.foldl (fun acc y => acc ++ f y) init = init ++ (l.map f).flatten := by
  intro l
  induction l with
  | nil => intro init; simp
  | cons a t ih =>
    intro init
    simp only [List.foldl_cons, List.map_cons, List.flatten_cons]
    rw [ih (init ++ f a), List.append_assoc]

theorem pngRaw_eq_scanlines (rgba : List ℕ) (wv hv : ℕ) :
    pngRaw rgba wv hv = (scanlineRows rgba wv hv).flatten := by
  unfold pngRaw scanlineRows
  rw [foldl_append_eq_flatten]
  simp

/-- Claim C6: the encoder output is the PNG signature followed by exactly
three chunks - IHDR declaring bit depth 8 and color type 6 (8-bit RGBA),
IDAT holding the compressed concatenation of the scanlines each prefixed by
a zero "no filter" byte, and an empty IEND - each chunk being payload
length, tag, payload, then the CRC32 over tag and payload; and the
channel-reordered buffer handed to the encoder has every pixel's alpha byte
forced to 255. -/
theorem png_layout (compress : List ℕ → List ℕ) (crc : List ℕ → ℕ)
    (rgba bgra : List ℕ) (wv hv i : ℕ) :
    _rgba_to_png compress crc rgba wv hv =
      pngSig ++
      pngChunk crc ihdrTag (be32 wv ++ be32 hv ++ [8, 6, 0, 0, 0]) ++
      pngChunk crc idatTag (compress (scanlineRows rgba wv hv).flatten) ++
      pngChunk crc iendTag [] ∧
    (4 * i + 3 < bgra.length → (bgra_to_rgba bgra).getD (4 * i + 3) 0 = 255) ∧
    (bgra_to_rgba bgra).length = bgra.length := by
  refine ⟨?_, ?_, by simp [bgra_to_rgba]⟩
  · unfold _rgba_to_png
    rw [pngRaw_eq_scanlines]
  · intro h
    unfold bgra_to_rgba
    have hlt : 4 * i + 3 < ((List.range bgra.length).map (fun i =>
        if i % 4 = 0 then bgra.getD (i + 2) 0
        else if i % 4 = 1 then bgra.getD i 0
        else if i % 4 = 2 then bgra.getD (i - 2) 0
        else 255)).length := by simpa using h
    rw [List.getD_eq_getElem _ _ hlt]
    simp only [List.getElem_map, List.getElem_range]
    rw [if_neg (by omega), if_neg (by omega), if_neg (by omega)]

/-- Witness for C6 on a 1x1 image with identity compression and zero CRC. -/
theorem png_layout_witness :
    (4 * 0 + 3 < 4 ∧ (bgra_to_rgba [1, 2, 3, 4]).getD 3 0 = 255) ∧
    _rgba_to_png id (fun _ => 0) [10, 20, 30, 255] 1 1 =
      pngSig ++
      pngChunk (fun _ => 0) ihdrTag (be32 1 ++ be32 1 ++ [8, 6, 0, 0, 0]) ++
      pngChunk (fun _ => 0) idatTag
        (id (scanlineRows [10, 20, 30, 255] 1 1).flatten) ++
      pngChunk (fun _ => 0) iendTag [] := by
  have h := png_layout id (fun _ => 0) [10, 20, 30, 255] [1, 2, 3, 4] 1 1 0
  exact ⟨⟨by decide, h.2.1 (by decide)⟩, h.1⟩
